import Mathlib

/-!
Shallow embedding of the retry middleware in `retry-hyper-client`
(`src/backoff.rs`, with the structurally identical copy in `src/main.rs`).

Modelling choices:
* `Duration` values are embedded as rationals (`ℚ`), measured in
  milliseconds; `Duration` is an unsigned type in the source, so
  non-negativity appears as a hypothesis where a theorem needs it.
* The `f64` multiplier and percentage jitter are embedded as exact
  rationals; `Duration::mul_f64` becomes exact multiplication.
* `rand::distributions::Uniform::new(lo, hi)` draws from the half-open
  range `[lo, hi)` and panics when `lo >= hi`; sampling is embedded as a
  function of an abstract sample `u ∈ [0, 1)` and returns `none` on the
  panicking empty range.
* `usize` subtraction `self.attempts - 1` is a program error (panic under
  overflow checks) when `attempts == 0`; it is embedded as `none`.
* `async` suspension (the `sleep`) is embedded by returning the awaited
  wait explicitly alongside the successor state.
-/

namespace RetryHyperClient

/-- Jitter to add on calls (`enum Jitter` in backoff.rs). -/
inductive Jitter where
  /-- Maximum jitter duration to add to delays between attempts. -/
  | duration : ℚ → Jitter
  /-- Maximum percentage of jitter to add to delays between attempts. -/
  | percentage : ℚ → Jitter
  deriving DecidableEq, Repr

/-- Exponential backoff with maximum delay (`struct Backoff`). -/
structure Backoff where
  /-- Maximum number of attempts before failing. -/
  attempts : ℕ
  /-- Initial delay. -/
  delay : ℚ
  /-- Multiplier for each delay. -/
  multiplier : ℚ
  /-- Maximum delay. -/
  max_delay : Option ℚ
  /-- Jitter to add on calls. -/
  jitter : Option Jitter
  deriving DecidableEq, Repr

namespace Backoff

/-- Defaults (`impl Default for Backoff`): 10 attempts, 100 ms, multiplier 2.0,
no ceiling, no jitter. -/
def default : Backoff :=
  { attempts := 10
    delay := 100
    multiplier := 2
    max_delay := none
    jitter := none }

/-- Constructor `Backoff::new()`. -/
def new : Backoff := default

/-- Setter `Backoff::with_attempts`. -/
def with_attempts (self : Backoff) (attempts : ℕ) : Backoff :=
  { self with attempts := attempts }

/-- Setter `Backoff::with_delay`. -/
def with_delay (self : Backoff) (delay : ℚ) : Backoff :=
  { self with delay := delay }

/-- Setter `Backoff::with_multiplier`. -/
def with_multiplier (self : Backoff) (multiplier : ℚ) : Backoff :=
  { self with multiplier := multiplier }

/-- Setter `Backoff::with_max_delay`. -/
def with_max_delay (self : Backoff) (max_delay : ℚ) : Backoff :=
  { self with max_delay := some max_delay }

/-- Setter `Backoff::with_jitter`. -/
def with_jitter (self : Backoff) (jitter : Jitter) : Backoff :=
  { self with jitter := some jitter }

end Backoff

/-- Embeds `rng.sample(Uniform::new(lo, hi))`: draws `lo + u * (hi - lo)` for an
abstract sample `u ∈ [0, 1)`; `Uniform::new` panics when `lo >= hi`
(empty range), embedded as `none`. -/
def sampleUniform (lo hi u : ℚ) : Option ℚ :=
  if lo < hi then some (lo + u * (hi - lo)) else none

/-- The effective (jittered) wait computed at the top of `Backoff::next`:
`self.delay` with the configured jitter applied. The sample `u` stands
for the randomness drawn from `rand::thread_rng()`. -/
def effectiveWait (self : Backoff) (u : ℚ) : Option ℚ :=
  match self.jitter with
  | none => some self.delay
  | some (Jitter.duration jitter) =>
      (sampleUniform 0 jitter u).map (fun j => self.delay + j)
  | some (Jitter.percentage percentage) =>
      (sampleUniform 0 percentage u).map (fun j => self.delay * (1 + j))

/-- The successor delay computed at the bottom of `Backoff::next`:
`self.delay.mul_f64(self.multiplier)`, clamped to `max_delay` when one is
configured. -/
def advanceDelay (self : Backoff) : ℚ :=
  let delay := self.delay * self.multiplier
  match self.max_delay with
  | some max_delay => if delay > max_delay then max_delay else delay
  | none => delay

/-- The successor state built at the bottom of `Backoff::next`.
`attempts: self.attempts - 1` is `usize` subtraction: at
`attempts == 0` it is an arithmetic-underflow program error, embedded
as `none`. -/
def advance (self : Backoff) : Option Backoff :=
  match self.attempts with
  | 0 => none
  | n + 1 =>
      some { attempts := n
             delay := advanceDelay self
             multiplier := self.multiplier
             max_delay := self.max_delay
             jitter := self.jitter }

/-- Result of awaiting `Backoff::next`: the wait that was slept and the
successor state that was returned. -/
structure NextResult where
  wait : ℚ
  state : Backoff
  deriving DecidableEq, Repr

/-- Embeds `Backoff::next` as a whole: computes the jittered wait from
`self.delay`, sleeps it, then returns the advanced successor.
`none` embeds a panic (empty jitter range, or `attempts - 1`
underflow). -/
def next (self : Backoff) (u : ℚ) : Option NextResult :=
  match effectiveWait self u with
  | none => none
  | some wait =>
      match advance self with
      | none => none
      | some state => some { wait := wait, state := state }

/-- Embeds `StatusCode::is_client_error`: 400..=499. -/
def is_client_error (status : ℕ) : Bool :=
  decide (400 ≤ status ∧ status ≤ 499)

/-- Embeds `StatusCode::is_server_error`: 500..=599. -/
def is_server_error (status : ℕ) : Bool :=
  decide (500 ≤ status ∧ status ≤ 599)

/-- The outcome of one attempt, `Result<&Response<Body>, &Error>`: a response
carrying a status code, or a transport-level failure. -/
inductive Outcome where
  | ok : ℕ → Outcome
  | err : Outcome
  deriving DecidableEq, Repr

/-- Embeds `<Backoff as Policy>::retry`: `none` is the Stop decision; `some b`
is the Retry decision carrying the cloned state `b` whose suspended
`b.next()` the caller awaits before resubmitting. -/
def retry (self : Backoff) (result : Outcome) : Option Backoff :=
  if self.attempts ≤ 0 then none
  else
    match result with
    | Outcome.ok status =>
        if is_server_error status || is_client_error status then some self
        else none
    | Outcome.err => some self

/-- The host retry loop (the semantics of the tower `Retry` service): feed the
outcome of each attempt to `retry`; on Stop, surface that outcome; on
Retry, await the suspended `next` (recording the wait) and resubmit the
replicated request with the successor state. Returns the list of waits
performed and `some o` for the surfaced final outcome, or `none` in the
second slot when the outcome list ran out while the loop still wanted
another attempt. The outer `none` embeds a panic inside `next`. -/
def runLoop : Backoff → List Outcome → List ℚ → Option (List ℚ × Option Outcome)
  | _, [], _ => some ([], none)
  | b, o :: os, us =>
      match retry b o with
      | none => some ([], some o)
      | some cloned =>
          match next cloned (us.headD 0) with
          | none => none
          | some r =>
              (runLoop r.state os us.tail).map fun p => (r.wait :: p.1, p.2)

/-- Iterates `advance` `n` times from `b` (the succession of backoff
states produced along a retry trajectory). -/
def iterAdvance (b : Backoff) : ℕ → Option Backoff
  | 0 => some b
  | n + 1 => (iterAdvance b n).bind advance

/-- An outbound `hyper::Request<T>`: method, URI, protocol version, the
header multimap (order-preserving list of name/value entries, repeated
names allowed) and the body. -/
structure Request (T : Type) where
  method : String
  uri : String
  version : String
  headers : List (String × String)
  body : T
  deriving DecidableEq, Repr

/-- Embeds the `http::request::Builder` state: the components accumulated so far. -/
structure RequestBuilder where
  method : String
  uri : String
  version : String
  headers : List (String × String)
  deriving DecidableEq, Repr

/-- Embeds `Builder::header`: appends one name/value entry. -/
def RequestBuilder.header (self : RequestBuilder) (name value : String) :
    RequestBuilder :=
  { self with headers := self.headers ++ [(name, value)] }

/-- Embeds `Builder::body`: finishes the builder into a request. (The source
builder can fail on malformed components; every component here comes
from an already-valid request, matching the `.expect` in the source.) -/
def RequestBuilder.body {T : Type} (self : RequestBuilder) (body : T) :
    Request T :=
  { method := self.method
    uri := self.uri
    version := self.version
    headers := self.headers
    body := body }

/-- Embeds `<Backoff as Policy>::clone_request`: rebuilds the request from a
fresh builder — same URI, method and version, then every header entry
in iteration order, then a clone of the body. -/
def clone_request {T : Type} (req : Request T) : Option (Request T) :=
  let new_req : RequestBuilder :=
    { method := req.method
      uri := req.uri
      version := req.version
      headers := [] }
  let new_req :=
    req.headers.foldl (fun b nv => b.header nv.1 nv.2) new_req
  let body := req.body
  some (new_req.body body)

/-! ## Helper lemmas -/

/-- The source expression `if delay > max_delay { max_delay } else { delay }`
is the minimum of the two. -/
lemma ite_gt_eq_min (d m : ℚ) : (if d > m then m else d) = min d m := by
  rcases lt_or_le m d with h | h
  · rw [if_pos h, min_eq_right h.le]
  · rw [if_neg (not_lt.mpr h), min_eq_left h]

/-- Lemma: `advance` succeeds exactly on a positive attempt budget, and the
successor keeps the configuration fields, carries `advanceDelay` and
decrements the budget. -/
lemma advance_eq_some (b b' : Backoff) (h : advance b = some b') :
    0 < b.attempts ∧ b'.attempts = b.attempts - 1 ∧
    b'.delay = advanceDelay b ∧ b'.multiplier = b.multiplier ∧
    b'.max_delay = b.max_delay ∧ b'.jitter = b.jitter := by
  unfold advance at h
  cases hb : b.attempts with
  | zero => rw [hb] at h; exact absurd h (by simp)
  | succ n =>
      rw [hb] at h
      cases h
      refine ⟨by omega, by simp [hb], rfl, rfl, rfl, rfl⟩

/-- Decomposition of a successful `next`: the slept wait is the
effective (jittered) wait of the state itself, and the returned state
is its `advance` successor. -/
lemma next_decomp (b : Backoff) (u : ℚ) (r : NextResult)
    (h : next b u = some r) :
    effectiveWait b u = some r.wait ∧ advance b = some r.state := by
  unfold next at h
  cases hw : effectiveWait b u with
  | none => rw [hw] at h; exact absurd h (by simp)
  | some w =>
      rw [hw] at h
      cases ha : advance b with
      | none => rw [ha] at h; exact absurd h (by simp)
      | some s =>
          rw [ha] at h
          cases h
          exact ⟨rfl, rfl⟩

/-! ## Claims -/

/-- C1: with `remaining_attempts > 0`, a transport failure or a 4xx/5xx
status yields Retry and any other status yields Stop; with
`remaining_attempts == 0` every outcome yields Stop. -/
theorem c1_decision_table (b : Backoff) (o : Outcome) :
    (retry b o).isSome = true ↔
      0 < b.attempts ∧
        (o = Outcome.err ∨
          ∃ s, o = Outcome.ok s ∧ 400 ≤ s ∧ s ≤ 599) := by
  cases o with
  | err =>
      by_cases h : b.attempts ≤ 0
      · simp [retry, h]
      · simp [retry, h]
        omega
  | ok s =>
      by_cases h : b.attempts ≤ 0
      · simp [retry, h]
      · by_cases hs : (is_server_error s || is_client_error s) = true
        · simp only [is_server_error, is_client_error, Bool.or_eq_true,
            decide_eq_true_eq] at hs
          simp [retry, h, is_server_error, is_client_error]
          omega
        · simp only [is_server_error, is_client_error, Bool.or_eq_true,
            decide_eq_true_eq] at hs
          simp [retry, h, is_server_error, is_client_error]
          omega

/-- C2 counterexample: on a Retry decision for the state with delay
100 ms and multiplier 2, the awaited wait is 100 ms (the jittered delay
of the state that was just evaluated) while the returned advanced state
stores 200 ms; its effective wait is 200 ms, not the 100 ms actually
slept. -/
theorem c2_counterexample :
    retry ⟨5, 100, 2, none, none⟩ Outcome.err = some ⟨5, 100, 2, none, none⟩ ∧
    next ⟨5, 100, 2, none, none⟩ 0 =
      some ⟨100, ⟨4, 200, 2, none, none⟩⟩ ∧
    effectiveWait ⟨4, 200, 2, none, none⟩ 0 = some 200 ∧
    (100 : ℚ) ≠ 200 := by
  refine ⟨by decide, ?_, ?_, by norm_num⟩
  · norm_num [next, effectiveWait, advance, advanceDelay]
  · norm_num [effectiveWait]

/-- C2 amended: for every Retry decision, the wait the caller awaits
before resubmitting is the effective (jittered) wait of the state that
was just evaluated, and the delay of the returned advanced successor governs
only the following wait. -/
theorem c2_wait_is_of_evaluated_state (b : Backoff) (u : ℚ) (r : NextResult)
    (h : next b u = some r) :
    effectiveWait b u = some r.wait ∧ advance b = some r.state :=
  next_decomp b u r h

/-- C2 witness at delay 100 ms, multiplier 2, no jitter. -/
theorem c2_witness :
    effectiveWait ⟨5, 100, 2, none, none⟩ 0 =
      some (NextResult.wait ⟨100, ⟨4, 200, 2, none, none⟩⟩) ∧
    advance ⟨5, 100, 2, none, none⟩ =
      some (NextResult.state ⟨100, ⟨4, 200, 2, none, none⟩⟩) :=
  c2_wait_is_of_evaluated_state ⟨5, 100, 2, none, none⟩ 0
    ⟨100, ⟨4, 200, 2, none, none⟩⟩
    (by norm_num [next, effectiveWait, advance, advanceDelay])

/-- C4: with a positive budget, `advance` yields a successor whose delay
is `min(current_delay * multiplier, max_delay)` (unclamped without a
ceiling) and whose budget is one less. -/
theorem c4_advance_arithmetic (b : Backoff) (h : 0 < b.attempts) :
    ∃ b', advance b = some b' ∧
      b'.delay = (match b.max_delay with
        | some m => min (b.delay * b.multiplier) m
        | none => b.delay * b.multiplier) ∧
      b'.attempts = b.attempts - 1 := by
  cases hb : b.attempts with
  | zero => omega
  | succ n =>
      refine ⟨_, by rw [advance, hb], ?_, by simp [hb]⟩
      show advanceDelay b = _
      unfold advanceDelay
      cases hm : b.max_delay with
      | none => rfl
      | some m => exact ite_gt_eq_min _ m

/-- C4 witness at the default configuration. -/
theorem c4_witness :
    0 < Backoff.default.attempts ∧
    ∃ b', advance Backoff.default = some b' ∧
      b'.delay = (match Backoff.default.max_delay with
        | some m => min (Backoff.default.delay * Backoff.default.multiplier) m
        | none => Backoff.default.delay * Backoff.default.multiplier) ∧
      b'.attempts = Backoff.default.attempts - 1 :=
  ⟨by decide, c4_advance_arithmetic Backoff.default (by decide)⟩

/-- C3 counterexample: with the `attempts` field set to 2, ceiling
150 ms, multiplier 3, initial delay 100 ms, the outcomes
[transport-failure, transport-failure] make the loop wait twice (100 ms,
then the clamped 150 ms) and demand a third attempt; it does not stop
after one wait, and the second transport failure is not surfaced. -/
theorem c3_counterexample :
    runLoop
        ((((Backoff.new.with_attempts 2).with_delay 100).with_multiplier
          3).with_max_delay 150)
        [Outcome.err, Outcome.err] [] = some ([100, 150], none) ∧
      (some ([(100 : ℚ), 150], (none : Option Outcome)) ≠
        some ([(100 : ℚ)], some Outcome.err)) := by
  constructor
  · norm_num [Backoff.new, Backoff.default, Backoff.with_attempts,
      Backoff.with_delay, Backoff.with_multiplier, Backoff.with_max_delay,
      runLoop, retry, next, effectiveWait, advance, advanceDelay]
  · simp

/-- C3 amended: with the `attempts` field set to 1 (a budget of one
retry, i.e. two total attempts), ceiling 150 ms, multiplier 3, initial
delay 100 ms, the outcomes [transport-failure, transport-failure] make
the loop perform exactly one wait of 100 ms (the pre-clamp delay; the
advance computes 300 ms and clamps it to 150 ms for a wait that never
happens) and reach terminal Stop, surfacing the second transport
failure. -/
theorem c3_amended_trace :
    runLoop
        ((((Backoff.new.with_attempts 1).with_delay 100).with_multiplier
          3).with_max_delay 150)
        [Outcome.err, Outcome.err] [] = some ([100], some Outcome.err) := by
  norm_num [Backoff.new, Backoff.default, Backoff.with_attempts,
    Backoff.with_delay, Backoff.with_multiplier, Backoff.with_max_delay,
    runLoop, retry, next, effectiveWait, advance, advanceDelay]

/-- Bounds on one delay step: under a multiplier of at least 1, a
non-negative delay below the ceiling, the stepped delay is non-negative,
at least the current delay, at most the ceiling, and fixed once the
delay sits exactly at the ceiling. -/
lemma advanceDelay_bounds (b : Backoff) (hm : 1 ≤ b.multiplier)
    (hd : 0 ≤ b.delay) (hc : ∀ m, b.max_delay = some m → b.delay ≤ m) :
    0 ≤ advanceDelay b ∧ b.delay ≤ advanceDelay b ∧
    (∀ m, b.max_delay = some m → advanceDelay b ≤ m) ∧
    (∀ m, b.max_delay = some m → b.delay = m → advanceDelay b = m) := by
  have hgrow : b.delay ≤ b.delay * b.multiplier := le_mul_of_one_le_right hd hm
  have hnn : 0 ≤ b.delay * b.multiplier := hd.trans hgrow
  unfold advanceDelay
  cases hmax : b.max_delay with
  | none =>
      refine ⟨hnn, hgrow, ?_, ?_⟩ <;> intro m hmm <;> exact absurd hmm (by simp)
  | some m =>
      have hdm : b.delay ≤ m := hc m hmax
      by_cases hgt : b.delay * b.multiplier > m
      · simp only [if_pos hgt]
        refine ⟨hd.trans hdm, hdm, ?_, ?_⟩
        · intro m' hmm; cases hmm; exact le_rfl
        · intro m' hmm hfix; cases hmm; rfl
      · simp only [if_neg hgt]
        push_neg at hgt
        refine ⟨hnn, hgrow, ?_, ?_⟩
        · intro m' hmm; cases hmm; exact hgt
        · intro m' hmm hfix
          cases hmm
          linarith

/-- The configuration fields are constant along `iterAdvance` and the
delay invariant (non-negative, below the ceiling) is preserved. -/
lemma iterAdvance_inv (b : Backoff) (hm : 1 ≤ b.multiplier)
    (hd : 0 ≤ b.delay) (hc : ∀ m, b.max_delay = some m → b.delay ≤ m) :
    ∀ n b1, iterAdvance b n = some b1 →
      b1.multiplier = b.multiplier ∧ b1.max_delay = b.max_delay ∧
      0 ≤ b1.delay ∧ (∀ m, b.max_delay = some m → b1.delay ≤ m) := by
  intro n
  induction n with
  | zero =>
      intro b1 h
      cases h
      exact ⟨rfl, rfl, hd, hc⟩
  | succ k ih =>
      intro b1 h
      rw [iterAdvance] at h
      cases hk : iterAdvance b k with
      | none => rw [hk] at h; exact absurd h (by simp)
      | some b0 =>
          rw [hk] at h
          simp only [Option.some_bind] at h
          obtain ⟨hmul, hmax, hd0, hle⟩ := ih b0 hk
          obtain ⟨-, -, hdel, hmul', hmax', -⟩ := advance_eq_some b0 b1 h
          have hbnd := advanceDelay_bounds b0 (hmul ▸ hm) hd0
            (fun m hmm => hle m (hmax ▸ hmm))
          refine ⟨hmul'.trans hmul, hmax'.trans hmax, hdel ▸ hbnd.1, ?_⟩
          intro m hmm
          exact hdel ▸ hbnd.2.2.1 m (hmax ▸ hmm)

/-- C5 counterexample: the delay sequence is not non-decreasing for
every state. With multiplier 1/2 (a positive real, as the data model
allows) the delay halves: 100 ms steps to 50 ms. With multiplier 2 but
an initial delay of 200 ms above the 150 ms ceiling, the delay drops to
the ceiling: 200 ms steps to 150 ms. -/
theorem c5_counterexample :
    advance ⟨10, 100, 1/2, none, none⟩ = some ⟨9, 50, 1/2, none, none⟩ ∧
    ¬ ((100 : ℚ) ≤ 50) ∧
    advance ⟨10, 200, 2, some 150, none⟩ = some ⟨9, 150, 2, some 150, none⟩ ∧
    ¬ ((200 : ℚ) ≤ 150) := by
  refine ⟨?_, by norm_num, ?_, by norm_num⟩ <;>
    norm_num [advance, advanceDelay]

/-- C5 amended: for every state whose multiplier is at least 1, whose
delay is non-negative (`Duration` is unsigned) and, when a ceiling is
configured, starts at or below it, the stored delays along repeated
`advance` are non-negative and non-decreasing, every delay after an
advance is at most the ceiling, and once a delay equals the ceiling the
next one is exactly the ceiling again. -/
theorem c5_delay_monotone (b : Backoff) (hm : 1 ≤ b.multiplier)
    (hd : 0 ≤ b.delay) (hc : ∀ m, b.max_delay = some m → b.delay ≤ m)
    (n : ℕ) (b1 b2 : Backoff)
    (h1 : iterAdvance b n = some b1) (h2 : iterAdvance b (n + 1) = some b2) :
    0 ≤ b1.delay ∧ b1.delay ≤ b2.delay ∧
    (∀ m, b.max_delay = some m → b2.delay ≤ m) ∧
    (∀ m, b.max_delay = some m → b1.delay = m → b2.delay = m) := by
  rw [iterAdvance, h1] at h2
  simp only [Option.some_bind] at h2
  obtain ⟨hmul, hmax, hd1, hle⟩ := iterAdvance_inv b hm hd hc n b1 h1
  obtain ⟨-, -, hdel, -, -, -⟩ := advance_eq_some b1 b2 h2
  have hbnd := advanceDelay_bounds b1 (hmul ▸ hm) hd1
    (fun m hmm => hle m (hmax ▸ hmm))
  refine ⟨hd1, hdel ▸ hbnd.2.1, ?_, ?_⟩
  · intro m hmm
    exact hdel ▸ hbnd.2.2.1 m (hmax ▸ hmm)
  · intro m hmm hfix
    exact hdel ▸ hbnd.2.2.2 m (hmax ▸ hmm) hfix

/-- C5 witness: default configuration with a 150 ms ceiling, first
step: 100 ms grows to the clamped 150 ms. -/
theorem c5_witness :
    (1 : ℚ) ≤ (Backoff.default.with_max_delay 150).multiplier ∧
    (0 : ℚ) ≤ (Backoff.default.with_max_delay 150).delay ∧
    (0 ≤ (Backoff.default.with_max_delay 150).delay ∧
      (Backoff.default.with_max_delay 150).delay ≤
        (Backoff.mk 9 150 2 (some 150) none).delay ∧
      (∀ m, (Backoff.default.with_max_delay 150).max_delay = some m →
        (Backoff.mk 9 150 2 (some 150) none).delay ≤ m) ∧
      (∀ m, (Backoff.default.with_max_delay 150).max_delay = some m →
        (Backoff.default.with_max_delay 150).delay = m →
        (Backoff.mk 9 150 2 (some 150) none).delay = m)) :=
  ⟨by norm_num [Backoff.default, Backoff.with_max_delay],
   by norm_num [Backoff.default, Backoff.with_max_delay],
   c5_delay_monotone (Backoff.default.with_max_delay 150)
     (by norm_num [Backoff.default, Backoff.with_max_delay])
     (by norm_num [Backoff.default, Backoff.with_max_delay])
     (by intro m hmm
         injection hmm with hmm
         rw [← hmm]
         norm_num [Backoff.default, Backoff.with_max_delay])
     0 (Backoff.default.with_max_delay 150) (Backoff.mk 9 150 2 (some 150) none)
     rfl
     (by norm_num [iterAdvance, advance, advanceDelay, Backoff.default,
       Backoff.with_max_delay])⟩

/-- C6: `next` on a state whose budget is 0 fails (the `usize`
subtraction `self.attempts - 1` is an arithmetic-underflow program
error): no successor state is returned. -/
theorem c6_advance_at_zero (b : Backoff) (u : ℚ) (h : b.attempts = 0) :
    advance b = none ∧ next b u = none := by
  have ha : advance b = none := by unfold advance; rw [h]
  refine ⟨ha, ?_⟩
  unfold next
  cases hw : effectiveWait b u with
  | none => rfl
  | some w => rw [ha]

/-- C6 witness: a zero-budget state. -/
theorem c6_witness :
    (Backoff.default.with_attempts 0).attempts = 0 ∧
    advance (Backoff.default.with_attempts 0) = none ∧
    next (Backoff.default.with_attempts 0) 0 = none :=
  ⟨rfl, (c6_advance_at_zero (Backoff.default.with_attempts 0) 0 rfl).1,
    (c6_advance_at_zero (Backoff.default.with_attempts 0) 0 rfl).2⟩

/-- C7 counterexample: with percentage jitter (here 1/2, a fraction the
range `[0,1)` of the configuration surface permits) and a current delay of
0, the sampled effective wait is 0, which does not lie in the claimed
half-open interval `[current_delay, current_delay * (1 + P))`: that
interval is `[0, 0)`, which is empty. -/
theorem c7_counterexample :
    effectiveWait ⟨10, 0, 2, none, some (Jitter.percentage (1/2))⟩ 0 =
      some 0 ∧
    ¬ ((0 : ℚ) ≤ 0 ∧ (0 : ℚ) < 0 * (1 + 1/2)) := by
  constructor
  · norm_num [effectiveWait, sampleUniform]
  · norm_num

/-- C7 amended: for every state and every admissible sample `u ∈ [0,1)`
— with no jitter the effective wait equals the current delay exactly;
with bounded-absolute jitter `J` every sampled wait lies in
`[current_delay, current_delay + J)`; with bounded-percentage jitter `P`
every sampled wait lies in `[current_delay, current_delay * (1 + P))`
provided the current delay is positive (at a zero delay the sampled
wait is the lower endpoint 0 and the interval is empty). -/
theorem c7_effective_wait_bounds (b : Backoff) (u : ℚ)
    (hu0 : 0 ≤ u) (hu1 : u < 1) :
    (b.jitter = none → effectiveWait b u = some b.delay) ∧
    (∀ J w, b.jitter = some (Jitter.duration J) →
      effectiveWait b u = some w → b.delay ≤ w ∧ w < b.delay + J) ∧
    (∀ P w, b.jitter = some (Jitter.percentage P) → 0 < b.delay →
      effectiveWait b u = some w → b.delay ≤ w ∧ w < b.delay * (1 + P)) := by
  refine ⟨?_, ?_, ?_⟩
  · intro h
    unfold effectiveWait
    rw [h]
  · intro J w hj hw
    unfold effectiveWait at hw
    rw [hj] at hw
    by_cases hJ : (0 : ℚ) < J
    · simp only [sampleUniform, if_pos hJ, Option.map_some'] at hw
      injection hw with hw
      have hsamp : u * J < J := by
        have := mul_lt_mul_of_pos_right hu1 hJ
        linarith
      have hsamp0 : 0 ≤ u * J := mul_nonneg hu0 hJ.le
      constructor <;> linarith [hw]
    · simp only [sampleUniform, if_neg hJ, Option.map_none'] at hw
      exact absurd hw (by simp)
  · intro P w hj hd hw
    unfold effectiveWait at hw
    rw [hj] at hw
    by_cases hP : (0 : ℚ) < P
    · simp only [sampleUniform, if_pos hP, Option.map_some'] at hw
      injection hw with hw
      have hsamp : u * P < P := by
        have := mul_lt_mul_of_pos_right hu1 hP
        linarith
      have hsamp0 : 0 ≤ u * P := mul_nonneg hu0 hP.le
      constructor
      · nlinarith
      · nlinarith
    · simp only [sampleUniform, if_neg hP, Option.map_none'] at hw
      exact absurd hw (by simp)

/-- C7 witness at absolute jitter 50 ms with sample 1/2. -/
theorem c7_witness :
    (0 : ℚ) ≤ 1/2 ∧ (1 : ℚ)/2 < 1 ∧
    (((⟨10, 100, 2, none, some (Jitter.duration 50)⟩ : Backoff).jitter =
        none →
      effectiveWait ⟨10, 100, 2, none, some (Jitter.duration 50)⟩ (1/2) =
        some (⟨10, 100, 2, none, some (Jitter.duration 50)⟩ : Backoff).delay) ∧
    (∀ J w,
      (⟨10, 100, 2, none, some (Jitter.duration 50)⟩ : Backoff).jitter =
        some (Jitter.duration J) →
      effectiveWait ⟨10, 100, 2, none, some (Jitter.duration 50)⟩ (1/2) =
        some w →
      (⟨10, 100, 2, none, some (Jitter.duration 50)⟩ : Backoff).delay ≤ w ∧
        w < (⟨10, 100, 2, none, some (Jitter.duration 50)⟩ : Backoff).delay
          + J) ∧
    (∀ P w,
      (⟨10, 100, 2, none, some (Jitter.duration 50)⟩ : Backoff).jitter =
        some (Jitter.percentage P) →
      0 < (⟨10, 100, 2, none, some (Jitter.duration 50)⟩ : Backoff).delay →
      effectiveWait ⟨10, 100, 2, none, some (Jitter.duration 50)⟩ (1/2) =
        some w →
      (⟨10, 100, 2, none, some (Jitter.duration 50)⟩ : Backoff).delay ≤ w ∧
        w < (⟨10, 100, 2, none, some (Jitter.duration 50)⟩ : Backoff).delay
          * (1 + P))) :=
  ⟨by norm_num, by norm_num,
    c7_effective_wait_bounds ⟨10, 100, 2, none, some (Jitter.duration 50)⟩
      (1/2) (by norm_num) (by norm_num)⟩

/-- C8: jitter affects only the realized wait, never the stored delay:
whatever jitter strategy is installed and whatever was sampled, a
successful `next` returns a successor whose stored delay is the
deterministic, jitter-free `advanceDelay` (the ceiling-clamped
`current_delay * multiplier`) and whose budget is one less. -/
theorem c8_jitter_only_wait (b : Backoff) (j : Option Jitter) (u : ℚ)
    (r : NextResult) (h : next { b with jitter := j } u = some r) :
    r.state.delay = advanceDelay b ∧ r.state.attempts = b.attempts - 1 := by
  obtain ⟨-, ha⟩ := next_decomp _ u r h
  obtain ⟨-, hatt, hdel, -, -, -⟩ := advance_eq_some _ _ ha
  exact ⟨hdel, hatt⟩

/-- C8 witness: percentage jitter 1/2 with sample 1/2 randomizes the
wait (125 ms) but the stored successor delay is still 200 ms. -/
theorem c8_witness :
    (NextResult.state
        ⟨125, ⟨9, 200, 2, none, some (Jitter.percentage (1/2))⟩⟩).delay =
      advanceDelay Backoff.default ∧
    (NextResult.state
        ⟨125, ⟨9, 200, 2, none, some (Jitter.percentage (1/2))⟩⟩).attempts =
      Backoff.default.attempts - 1 :=
  c8_jitter_only_wait Backoff.default (some (Jitter.percentage (1/2))) (1/2)
    ⟨125, ⟨9, 200, 2, none, some (Jitter.percentage (1/2))⟩⟩
    (by norm_num [Backoff.default, next, effectiveWait, advance, advanceDelay,
      sampleUniform])

/-- Folding `Builder::header` over a list of entries appends them, in
order, to the accumulated header list. -/
lemma foldl_header (l : List (String × String)) (acc : RequestBuilder) :
    l.foldl (fun b nv => b.header nv.1 nv.2) acc =
      { acc with headers := acc.headers ++ l } := by
  induction l generalizing acc with
  | nil => simp
  | cons hd tl ih =>
      rw [List.foldl_cons, ih]
      simp [RequestBuilder.header, List.append_assoc]

/-- C9: the replicated request is structurally identical to the
original — same method, URI, protocol version, the full header entry
list (repeated names included, original order), and the same body. The
copy is built from a fresh builder and a cloned body, so it shares no
mutable state with the original. -/
theorem c9_clone_request {T : Type} (req : Request T) :
    clone_request req = some req := by
  unfold clone_request
  simp only [foldl_header, RequestBuilder.body]
  simp

/-- C10: a zero jitter bound (absolute jitter of 0, or percentage 0.0)
makes `next` fail: `Uniform::new(lo, hi)` panics on the empty range
`lo >= hi` instead of degrading to a zero-jitter wait. -/
theorem c10_zero_jitter_panics (b : Backoff) (u : ℚ)
    (h : b.jitter = some (Jitter.duration 0) ∨
      b.jitter = some (Jitter.percentage 0)) :
    next b u = none := by
  have hw : effectiveWait b u = none := by
    unfold effectiveWait
    rcases h with h | h <;> rw [h] <;> simp [sampleUniform]
  unfold next
  rw [hw]

/-- C10 witness: absolute jitter with bound 0. -/
theorem c10_witness :
    ((Backoff.default.with_jitter (Jitter.duration 0)).jitter =
        some (Jitter.duration 0) ∨
      (Backoff.default.with_jitter (Jitter.duration 0)).jitter =
        some (Jitter.percentage 0)) ∧
    next (Backoff.default.with_jitter (Jitter.duration 0)) 0 = none :=
  ⟨Or.inl rfl,
    c10_zero_jitter_panics (Backoff.default.with_jitter (Jitter.duration 0)) 0
      (Or.inl rfl)⟩

end RetryHyperClient
